import Mathlib

/-!
Verification of the forecasting pipeline of `streamlit_app.py`.

Shallow embedding conventions:

* Calendar months (the `AnoMes` column, produced by `to_period("M")`) are
  absolute month indices (`year * 12 + month - 1`), so that adding `1`
  moves to the next calendar month, exactly as `pd.offsets.MonthBegin()`
  and `pd.DateOffset(months=1)` do on first-of-month timestamps.
* Issue dates are encoded as `yyyymmdd` natural numbers, an encoding on
  which the numeric order agrees with calendar order, so the filter
  `Emissao >= MIN_DATE` is a plain `≤` comparison.
* Quantities parsed by `pd.to_numeric` are rationals; forecast quantities
  become integers after `.round().astype(int)` (numpy rounds half to even).
* The external `statsmodels` fit `ExponentialSmoothing(...).fit()` either
  raises or yields a forecast function; it is modelled as a parameter of
  type `Except Unit (ℕ → ℚ)`: `.error ()` is a raised exception,
  `.ok f` a fitted model whose `forecast` at step `i` is `f i`.
  `make_forecast_from_series` contains no exception handler, so a raised
  fit propagates to its caller, exactly as in the Python source.
* Fallible pipeline steps return `Except` / `Option`; `st.stop()` and a
  caught exception followed by `return` are the error branches.
-/

deriving instance DecidableEq for Except

/-- Configuration constant `FORECAST_MONTHS = 6` (line 19 of the source). -/
def FORECAST_MONTHS : ℕ := 6

/-- Configuration constant `REDUCTION_FACTOR = 0.9` (line 20 of the source). -/
def REDUCTION_FACTOR : ℚ := 9 / 10

/-- Configuration constant `MIN_DATE = "2024-01-01"` (line 21), in the
`yyyymmdd` encoding of dates. -/
def MIN_DATE : ℕ := 20240101

/-- Rounding half to even on rationals: the rounding performed by
`pandas.Series.round()` (numpy banker rounding), used by
`make_forecast_from_series` before `astype(int)`. -/
def roundHalfEven (q : ℚ) : ℤ :=
  let f : ℤ := Int.floor q
  let r : ℚ := q - f
  if r < 1 / 2 then f
  else if 1 / 2 < r then f + 1
  else if f % 2 = 0 then f else f + 1

/-- One row of the combined chart dataframe: columns
`AnoMes`, `Quantidade`, `Previsao` (lines 176-178 and 524-525). -/
structure FcRow where
  anoMes : ℕ
  quantidade : ℚ
  previsao : String
deriving DecidableEq, Repr

/-- One row of the normalized sales table used by the dashboard
(the columns of the frame returned by `load_data` that the forecasting
pipeline reads: `Produto`, `AnoMes`, `Quantidade`). -/
structure SalesRow where
  produto : String
  anoMes : ℕ
  quantidade : ℚ
deriving DecidableEq, Repr

/-- The month of the last entry of a series, `serie.index[-1]` in the
source (the series is always sorted ascending by `sort_index`, so this is
the latest historical month). -/
def lastMonth (serie : List (ℕ × ℚ)) : ℕ :=
  ((serie.getLast?).map Prod.fst).getD 0

/-- Embedding of `make_forecast_from_series` (lines 171-179).
The fitted model is the `Except`-valued parameter `fit`; the function has
no handler, so a raised fit is returned as `.error` to the caller.
On success the forecast index is
`pd.date_range(start=serie.index[-1] + MonthBegin(), periods=6, freq="MS")`,
i.e. the six consecutive months after the last month of the series, and
each quantity is `(m.forecast(6)[i] * REDUCTION_FACTOR).round().astype(int)`.
An empty series also raises inside the library (`serie.index[-1]`). -/
def make_forecast_from_series (fit : Except Unit (ℕ → ℚ)) (serie : List (ℕ × ℚ)) :
    Except Unit (List FcRow) :=
  match fit with
  | .error e => .error e
  | .ok f =>
    match serie.getLast? with
    | none => .error ()
    | some last =>
      .ok ((List.range FORECAST_MONTHS).map (fun i =>
        { anoMes := last.1 + 1 + i
          quantidade := ((roundHalfEven (f i * REDUCTION_FACTOR) : ℤ) : ℚ)
          previsao := "PREVISÃO" }))

/-- Embedding of `df.groupby("AnoMes", as_index=False)["Quantidade"].sum()`
(lines 323, 365, 524) followed by `set_index("AnoMes").sort_index()`:
one entry per distinct month, months ascending, quantities summed.
Pandas groupby sorts by the group key, which the explicit sort reproduces. -/
def aggregateMonths (rows : List SalesRow) : List (ℕ × ℚ) :=
  let months := List.insertionSort (· ≤ ·) ((rows.map (fun r => r.anoMes)).dedup)
  months.map (fun m => (m, ((rows.filter (fun r => r.anoMes == m)).map
    (fun r => r.quantidade)).sum))

/-- Monthly series of one product: `df[df["Produto"] == produto]` grouped
by month (lines 320-329 and 364-370). -/
def aggregateFor (produto : String) (df : List SalesRow) : List (ℕ × ℚ) :=
  aggregateMonths (df.filter (fun r => r.produto == produto))

/-- Embedding of the forecast step of `show_dashboard` (lines 524-533):
group the filtered selection by month, label it `HISTÓRICO`, forecast, and
concatenate; a raised forecast is caught (`except`), an error message is
shown and the function returns with no combined result (`none`). -/
def show_dashboard_forecast (fit : Except Unit (ℕ → ℚ)) (dff : List SalesRow) :
    Option (List FcRow) :=
  let grouped := aggregateMonths dff
  let serie := grouped
  match make_forecast_from_series fit serie with
  | .error _ => none
  | .ok fc =>
    some ((grouped.map (fun g =>
      ({ anoMes := g.1, quantidade := g.2, previsao := "HISTÓRICO" } : FcRow))) ++ fc)

/-- The maximum of the `AnoMes` column, `df["AnoMes"].max()` (line 357). -/
def maxAnoMes (df : List SalesRow) : ℕ :=
  (df.map (fun r => r.anoMes)).foldl max 0

/-- One row of the export tables built by `create_export_table` and
`create_all_forecasts_table`: product, forecast month, and the positive
integer-valued predicted quantity. The formatted `Data` string column,
`strftime("%m/%Y")`, is a rendering of `anoMes` and is not modelled. -/
structure ExportRow where
  produto : String
  anoMes : ℕ
  quantidadePrevista : ℚ
deriving DecidableEq, Repr

/-- Embedding of `df["Produto"].unique()` (lines 317, 354): the distinct
products in order of first appearance. -/
def pdUnique : List String → List String
  | [] => []
  | x :: xs => x :: pdUnique (xs.filter (fun y => !(y == x)))
termination_by l => l.length
decreasing_by
  simp only [List.length_cons]
  exact Nat.lt_succ_of_le (List.length_filter_le _ _)

/-- Per-date lookup of the export loops (lines 336-345 and 377-387):
`previsao_mes = fc[fc["AnoMes"] == forecast_date]`, and when this match
is nonempty and its first quantity is positive, one export row. -/
def forecastRowAt (produto : String) (fc : List FcRow) (d : ℕ) : List ExportRow :=
  match (fc.filter (fun row => row.anoMes == d)).head? with
  | none => []
  | some row =>
    if 0 < row.quantidade then
      [{ produto := produto, anoMes := d, quantidadePrevista := row.quantidade }]
    else []

/-- Loop body of `create_all_forecasts_table` for one product
(lines 363-389): group the product rows by month, skip the product when it
has fewer than two monthly points, forecast (a raised fit is swallowed by
`except: continue`), and keep the `forecastRowAt` row of each candidate
forecast date. -/
def forecastRowsFor (fitFor : String → Except Unit (ℕ → ℚ)) (df : List SalesRow)
    (forecastDates : List ℕ) (produto : String) : List ExportRow :=
  let grouped := aggregateFor produto df
  if grouped.length < 2 then []
  else
    match make_forecast_from_series (fitFor produto) grouped with
    | .error _ => []
    | .ok fc => forecastDates.flatMap (forecastRowAt produto fc)

/-- Embedding of `create_all_forecasts_table` (lines 351-391): the six
candidate forecast dates are `df["AnoMes"].max() + pd.DateOffset(months=i)`
for `i = 1..6`, computed from the whole filtered dataset, and every
product is processed by `forecastRowsFor`. -/
def create_all_forecasts_table (fitFor : String → Except Unit (ℕ → ℚ))
    (df : List SalesRow) : List ExportRow :=
  let maxDate := maxAnoMes df
  let forecastDates := (List.range FORECAST_MONTHS).map (fun i => maxDate + (i + 1))
  (pdUnique (df.map (fun r => r.produto))).flatMap
    (forecastRowsFor fitFor df forecastDates)

/-- Embedding of `create_export_table` (lines 314-349): identical loop,
but only the single user-selected date is looked up in the forecast. -/
def create_export_table (fitFor : String → Except Unit (ℕ → ℚ))
    (df : List SalesRow) (selectedDate : ℕ) : List ExportRow :=
  (pdUnique (df.map (fun r => r.produto))).flatMap
    (forecastRowsFor fitFor df [selectedDate])




/-- Whitespace, as stripped by Python `str.strip()`. -/
def isSpaceChar (c : Char) : Bool :=
  c == ' ' || c == '\t' || c == '\n' || c == '\r'

/-- Python `str.strip()`: drop leading and trailing whitespace. -/
def pyStrip (s : String) : String :=
  String.mk (((s.data.dropWhile isSpaceChar).reverse.dropWhile isSpaceChar).reverse)

/-- Python `str.lower()` (ASCII letters; the headers and fields compared
here are ASCII after NFD-decomposition). -/
def pyLower (s : String) : String :=
  String.mk (s.data.map Char.toLower)

/-- Python `str.upper()`. -/
def pyUpper (s : String) : String :=
  String.mk (s.data.map Char.toUpper)

/-- Canonical (NFD) decomposition of one character, restricted to the
accented Latin letters of Portuguese column headers; every other
character decomposes to itself. Models `unicodedata.normalize("NFD", _)`
character by character. -/
def nfdChar (c : Char) : List Char :=
  match c with
  | 'á' => ['a', '\u0301'] | 'à' => ['a', '\u0300'] | 'â' => ['a', '\u0302']
  | 'ã' => ['a', '\u0303'] | 'é' => ['e', '\u0301'] | 'ê' => ['e', '\u0302']
  | 'í' => ['i', '\u0301'] | 'ó' => ['o', '\u0301'] | 'ô' => ['o', '\u0302']
  | 'õ' => ['o', '\u0303'] | 'ú' => ['u', '\u0301'] | 'ç' => ['c', '\u0327']
  | 'Á' => ['A', '\u0301'] | 'À' => ['A', '\u0300'] | 'Â' => ['A', '\u0302']
  | 'Ã' => ['A', '\u0303'] | 'É' => ['E', '\u0301'] | 'Ê' => ['E', '\u0302']
  | 'Í' => ['I', '\u0301'] | 'Ó' => ['O', '\u0301'] | 'Ô' => ['O', '\u0302']
  | 'Õ' => ['O', '\u0303'] | 'Ú' => ['U', '\u0301'] | 'Ç' => ['C', '\u0327']
  | _ => [c]

/-- Combining diacritical marks: the characters of Unicode category `Mn`
produced by `nfdChar` (`unicodedata.category(c) == "Mn"`). -/
def isMn (c : Char) : Bool :=
  c == '\u0300' || c == '\u0301' || c == '\u0302' || c == '\u0303' || c == '\u0327'

/-- Embedding of `remove_acentos` (lines 111-114): NFD-decompose, drop the
combining marks, then `.strip().lower()`. -/
def remove_acentos (s : String) : String :=
  pyLower (pyStrip (String.mk ((s.data.flatMap nfdChar).filter (fun c => !(isMn c)))))

/-- Embedding of `find_column` (lines 116-121): the first column whose
normalized form equals the normalized target, if any. -/
def find_column (cols : List String) (target : String) : Option String :=
  cols.find? (fun col => remove_acentos col == remove_acentos target)

/-- The required logical columns of `load_data` (line 143). -/
def requiredCols : List String := ["Emissao", "Cliente", "Produto", "Quantidade"]

/-- The lookup loop of `load_data` (lines 142-148): resolve each required
logical column; on the first one with no match, `st.error` +
`st.stop()` halt the pipeline, modelled as `.error` carrying the missing
logical name. -/
def findRequired (cols : List String) : List String → Except String (List (String × String))
  | [] => .ok []
  | c :: rest =>
    match find_column cols c with
    | none => .error c
    | some fc => (findRequired cols rest).map (fun acc => (c, fc) :: acc)

/-- Column-resolution phase of `load_data`: the raw header is first
whitespace-stripped (`df.columns.str.strip()`, line 141), then every
required logical column is resolved. -/
def load_data_cols (rawCols : List String) : Except String (List (String × String)) :=
  findRequired (rawCols.map pyStrip) requiredCols


/-- One raw spreadsheet row as read with `dtype=str`: a missing cell is a
null (`none`); `emissao` carries the result of `pd.to_datetime(_,
errors="coerce")` in the `yyyymmdd` encoding, `quantidade` the result of
`pd.to_numeric(_, errors="coerce")` — the coercions themselves are the
external parsers, so each field holds the parse outcome. -/
structure RawRow where
  emissao : Option ℕ
  cliente : Option String
  produto : Option String
  quantidade : Option ℚ
  grupo : Option String
deriving DecidableEq, Repr

/-- A row after the column-wise coercions of lines 150-153. -/
structure CoercedRow where
  emissao : Option ℕ
  cliente : Option String
  produto : Option String
  quantidade : Option ℚ
  grupo : Option String
deriving DecidableEq, Repr

/-- A retained row of the normalized table (lines 155-169), with the
issue date kept alongside the derived `AnoMes` month. -/
structure DfRow where
  emissao : Option ℕ
  cliente : Option String
  produto : Option String
  quantidade : Option ℚ
  anoMes : ℕ
  grupo : String
deriving DecidableEq, Repr

/-- Pandas `.astype(str)` renders a missing value as the string `"nan"`;
a present string is unchanged. -/
def strAstype : Option String → String
  | none => "nan"
  | some s => s

/-- Truncation of a `yyyymmdd` date to its calendar month as an absolute
month index: `dt.to_period("M")` (line 161). -/
def toAnoMes (d : ℕ) : ℕ :=
  (d / 10000) * 12 + ((d / 100) % 100 - 1)

/-- Row-cleaning phase of `load_data` (lines 150-169): coerce the string
columns (`astype(str).str.strip().str.upper()`), drop the rows with a
null in any of the four required columns, drop the rows dated before
`MIN_DATE`, derive `AnoMes`, and fill `Grupo` (the sentinel `"SEM
GRUPO"` when the optional column is absent). -/
def load_data_rows (hasGrupo : Bool) (raws : List RawRow) : List DfRow :=
  ((((raws.map (fun r =>
      ({ emissao := r.emissao
         cliente := some (pyUpper (pyStrip (strAstype r.cliente)))
         produto := some (pyUpper (pyStrip (strAstype r.produto)))
         quantidade := r.quantidade
         grupo := r.grupo } : CoercedRow)))).filter (fun r =>
      r.emissao.isSome && r.cliente.isSome && r.produto.isSome &&
        r.quantidade.isSome)).filter (fun r =>
      decide (MIN_DATE ≤ r.emissao.getD 0))).map (fun r =>
    { emissao := r.emissao
      cliente := r.cliente
      produto := r.produto
      quantidade := r.quantidade
      anoMes := toAnoMes (r.emissao.getD 0)
      grupo := if hasGrupo then pyUpper (pyStrip (strAstype r.grupo)) else "SEM GRUPO" })


/-- Characterization of a successful forecast: the fit succeeded, the
series is nonempty, and the result is the six-month table. -/
theorem make_forecast_from_series_ok {fit : Except Unit (ℕ → ℚ)}
    {serie : List (ℕ × ℚ)} {fc : List FcRow}
    (h : make_forecast_from_series fit serie = .ok fc) :
    ∃ f, fit = .ok f ∧ serie ≠ [] ∧
      fc = (List.range FORECAST_MONTHS).map (fun i =>
        { anoMes := lastMonth serie + 1 + i
          quantidade := ((roundHalfEven (f i * REDUCTION_FACTOR) : ℤ) : ℚ)
          previsao := "PREVISÃO" }) := by
  cases fit with
  | error e => simp [make_forecast_from_series] at h
  | ok f =>
    cases hl : serie.getLast? with
    | none => simp [make_forecast_from_series, hl] at h
    | some last =>
      refine ⟨f, rfl, ?_, ?_⟩
      · intro hnil
        rw [hnil] at hl
        simp at hl
      · have h2 := h
        simp only [make_forecast_from_series, hl] at h2
        injection h2 with h3
        rw [← h3]
        have : lastMonth serie = last.1 := by
          simp [lastMonth, hl]
        rw [this]

/-- Every row of a successful forecast lies in the six months right after
the last month of the series. -/
theorem mem_make_forecast_anoMes {fit : Except Unit (ℕ → ℚ)}
    {serie : List (ℕ × ℚ)} {fc : List FcRow}
    (h : make_forecast_from_series fit serie = .ok fc) :
    ∀ row ∈ fc, lastMonth serie + 1 ≤ row.anoMes ∧
      row.anoMes ≤ lastMonth serie + FORECAST_MONTHS := by
  obtain ⟨f, _, _, hfc⟩ := make_forecast_from_series_ok h
  subst hfc
  intro row hrow
  obtain ⟨i, hi, hrow⟩ := List.mem_map.mp hrow
  rw [List.mem_range] at hi
  rw [← hrow]
  dsimp only
  omega

/-- A successful forecast has exactly `FORECAST_MONTHS` rows. -/
theorem make_forecast_length {fit : Except Unit (ℕ → ℚ)}
    {serie : List (ℕ × ℚ)} {fc : List FcRow}
    (h : make_forecast_from_series fit serie = .ok fc) :
    fc.length = FORECAST_MONTHS := by
  obtain ⟨f, _, _, hfc⟩ := make_forecast_from_series_ok h
  subst hfc
  simp

/-- In a `≤`-sorted list every element is bounded by the last one. -/
theorem le_getLast_of_sorted {l : List ℕ} (hs : List.Sorted (· ≤ ·) l) :
    ∀ x ∈ l, x ≤ (l.getLast?).getD 0 := by
  induction l with
  | nil => simp
  | cons a t ih =>
    intro x hx
    cases t with
    | nil =>
      simp at hx
      simp [hx]
    | cons b t2 =>
      rw [List.getLast?_cons_cons]
      rcases List.mem_cons.mp hx with rfl | hxt
      · have hab : ∀ y ∈ b :: t2, x ≤ y := (List.sorted_cons.mp hs).1
        have hne : (b :: t2) ≠ ([] : List ℕ) := by simp
        have hlast := List.getLast?_eq_getLast_of_ne_nil hne
        rw [hlast]
        exact hab _ (List.getLast_mem hne)
      · exact ih (List.sorted_cons.mp hs).2 x hxt

/-- The months of `aggregateMonths` are the sorted distinct months. -/
theorem aggregateMonths_map_fst (rows : List SalesRow) :
    (aggregateMonths rows).map Prod.fst =
      List.insertionSort (· ≤ ·) ((rows.map (fun r => r.anoMes)).dedup) := by
  simp [aggregateMonths, List.map_map, Function.comp_def]

/-- The month column of `aggregateMonths` is sorted ascending. -/
theorem aggregateMonths_sorted (rows : List SalesRow) :
    List.Sorted (· ≤ ·) ((aggregateMonths rows).map Prod.fst) := by
  rw [aggregateMonths_map_fst]
  exact List.sorted_insertionSort _ _

/-- Aggregation is invariant under permutation of the input rows: the
distinct months coincide, both sides sort them identically, and each
monthly sum is a permutation-invariant sum. -/
theorem aggregateMonths_perm {rows rows' : List SalesRow}
    (h : rows.Perm rows') : aggregateMonths rows = aggregateMonths rows' := by
  have hdedup : ((rows.map (fun r => r.anoMes)).dedup).Perm
      ((rows'.map (fun r => r.anoMes)).dedup) := (h.map _).dedup
  have hsortperm :
      (List.insertionSort (· ≤ ·) ((rows.map (fun r => r.anoMes)).dedup)).Perm
        (List.insertionSort (· ≤ ·) ((rows'.map (fun r => r.anoMes)).dedup)) :=
    ((List.perm_insertionSort _ _).trans hdedup).trans
      (List.perm_insertionSort _ _).symm
  have hsort :
      List.insertionSort (· ≤ ·) ((rows.map (fun r => r.anoMes)).dedup) =
        List.insertionSort (· ≤ ·) ((rows'.map (fun r => r.anoMes)).dedup) :=
    List.eq_of_perm_of_sorted hsortperm
      (List.sorted_insertionSort _ _) (List.sorted_insertionSort _ _)
  unfold aggregateMonths
  rw [hsort]
  refine List.map_congr_left ?_
  intro m _
  have hsum : ((rows.filter (fun r => r.anoMes == m)).map
      (fun r => r.quantidade)).Perm
      ((rows'.filter (fun r => r.anoMes == m)).map (fun r => r.quantidade)) :=
    (h.filter _).map _
  rw [hsum.sum_eq]

/-- Every product returned by `pdUnique` occurs in the input. -/
theorem mem_of_mem_pdUnique : ∀ (l : List String) (a : String),
    a ∈ pdUnique l → a ∈ l := by
  intro l
  induction l using pdUnique.induct with
  | case1 =>
    intro a ha
    simp [pdUnique] at ha
  | case2 x xs ih =>
    intro a ha
    rw [pdUnique] at ha
    rcases List.mem_cons.mp ha with rfl | h2
    · exact List.mem_cons_self _ _
    · exact List.mem_cons_of_mem _ (List.mem_of_mem_filter (ih _ h2))

/-- `pdUnique` returns a list without duplicates. -/
theorem pdUnique_nodup : ∀ (l : List String), (pdUnique l).Nodup := by
  intro l
  induction l using pdUnique.induct with
  | case1 => simp [pdUnique]
  | case2 x xs ih =>
    rw [pdUnique]
    refine List.nodup_cons.mpr ⟨?_, ih⟩
    intro hx
    have h2 := List.of_mem_filter (mem_of_mem_pdUnique _ _ hx)
    simp at h2

/-- A `flatMap` whose blocks have at most one element is no longer than
its index list. -/
theorem length_flatMap_le_of_le_one {α β : Type} (l : List α) (g : α → List β)
    (h : ∀ a, (g a).length ≤ 1) : (l.flatMap g).length ≤ l.length := by
  induction l with
  | nil => simp
  | cons a t ih =>
    rw [List.flatMap_cons, List.length_append, List.length_cons]
    have := h a
    omega

/-- `forecastRowAt` yields at most one row. -/
theorem forecastRowAt_length_le_one (p : String) (fc : List FcRow) (d : ℕ) :
    (forecastRowAt p fc d).length ≤ 1 := by
  unfold forecastRowAt
  split
  · simp
  · split <;> simp

/-- A date later than every forecast month yields no export row. -/
theorem forecastRowAt_eq_nil {p : String} {fc : List FcRow} {d : ℕ}
    (h : ∀ row ∈ fc, row.anoMes < d) : forecastRowAt p fc d = [] := by
  unfold forecastRowAt
  have hfil : fc.filter (fun row => row.anoMes == d) = [] := by
    rw [List.filter_eq_nil_iff]
    intro row hrow
    have := h row hrow
    simp
    omega
  rw [hfil]
  rfl

/-- Shape of a row produced by `forecastRowAt`: its product is `p`, its
month is `d`, there is a matching forecast row, and the quantity is that
positive quantity of that row. -/
theorem mem_forecastRowAt {p : String} {fc : List FcRow} {d : ℕ} {row : ExportRow}
    (h : row ∈ forecastRowAt p fc d) :
    row.produto = p ∧ row.anoMes = d ∧ 0 < row.quantidadePrevista ∧
      ∃ r0 ∈ fc, r0.anoMes = d ∧ r0.quantidade = row.quantidadePrevista := by
  unfold forecastRowAt at h
  split at h
  · simp at h
  next r0 hh =>
    have hcons := List.eq_cons_of_mem_head? (by rw [hh]; exact rfl)
    have hr0mem : r0 ∈ fc.filter (fun r => r.anoMes == d) := by
      rw [hcons]
      exact List.mem_cons_self _ _
    have hr0fc := List.mem_of_mem_filter hr0mem
    have hr0d : r0.anoMes = d := by
      have := List.of_mem_filter hr0mem
      simpa using this
    split at h
    next hq =>
      simp at h
      subst h
      exact ⟨rfl, rfl, hq, r0, hr0fc, hr0d, rfl⟩
    next hq => simp at h

/-- Every row contributed by one product in the export loops carries that
product name, a positive quantity, a month among the candidate dates that
also lies in the forecast window of the product itself, and the product has at
least two distinct historical months. -/
theorem mem_forecastRowsFor {fitFor : String → Except Unit (ℕ → ℚ)}
    {df : List SalesRow} {dates : List ℕ} {p : String} {row : ExportRow}
    (hrow : row ∈ forecastRowsFor fitFor df dates p) :
    row.produto = p ∧ row.anoMes ∈ dates ∧ 0 < row.quantidadePrevista ∧
      2 ≤ (aggregateFor p df).length ∧
      lastMonth (aggregateFor p df) + 1 ≤ row.anoMes ∧
      row.anoMes ≤ lastMonth (aggregateFor p df) + FORECAST_MONTHS := by
  simp only [forecastRowsFor] at hrow
  split at hrow
  · simp at hrow
  next hlen =>
    split at hrow
    · simp at hrow
    next fc heq =>
      obtain ⟨d, hd, hrowd⟩ := List.mem_flatMap.mp hrow
      obtain ⟨hprod, hmes, hpos, r0, hr0fc, hr0d, _⟩ := mem_forecastRowAt hrowd
      obtain ⟨hlo, hhi⟩ := mem_make_forecast_anoMes heq r0 hr0fc
      refine ⟨hprod, ?_, hpos, by omega, ?_, ?_⟩ <;> rw [hmes]
      · exact hd
      · omega
      · omega

/-- Counting rows of one product in a per-product `flatMap`: when the
product names are distinct and each block only emits rows of its own
product, the count is the length of the block of that product. -/
theorem countP_flatMap_products {qs : List String} {inner : String → List ExportRow}
    (hnd : qs.Nodup) (hin : ∀ q, ∀ row ∈ inner q, row.produto = q) (p : String) :
    ((qs.flatMap inner).countP (fun row => row.produto == p)) =
      if p ∈ qs then (inner p).length else 0 := by
  induction qs with
  | nil => simp
  | cons q qs ih =>
    rw [List.flatMap_cons, List.countP_append]
    have hnd2 := List.nodup_cons.mp hnd
    by_cases hqp : q = p
    · subst hqp
      have h1 : (inner q).countP (fun row => row.produto == q) = (inner q).length :=
        List.countP_eq_length.mpr (fun row hrow => by simp [hin q row hrow])
      have h2 : ((qs.flatMap inner).countP (fun row => row.produto == q)) = 0 := by
        rw [ih hnd2.2]
        simp [hnd2.1]
      rw [h1, h2, if_pos (List.mem_cons_self _ _)]
      omega
    · have hpq : ¬p = q := fun h => hqp h.symm
      have h1 : (inner q).countP (fun row => row.produto == p) = 0 :=
        List.countP_eq_zero.mpr (fun row hrow => by simp [hin q row hrow, hqp])
      rw [h1, ih hnd2.2]
      by_cases hp : p ∈ qs
      · simp [hp, List.mem_cons]
      · simp [hp, List.mem_cons, hpq]

/-- One product contributes at most one export row per candidate date. -/
theorem forecastRowsFor_length_le {fitFor : String → Except Unit (ℕ → ℚ)}
    {df : List SalesRow} {dates : List ℕ} {p : String} :
    (forecastRowsFor fitFor df dates p).length ≤ dates.length := by
  simp only [forecastRowsFor]
  split
  · simp
  · split
    · simp
    · exact length_flatMap_le_of_le_one _ _ (forecastRowAt_length_le_one _ _)

/-- A product whose own last historical month precedes the dataset-wide
maximum `M` contributes strictly fewer than `FORECAST_MONTHS` rows when
the candidate dates are `M + 1 .. M + FORECAST_MONTHS`: the last candidate
date lies beyond the forecast window of the product. -/
theorem forecastRowsFor_length_lt {fitFor : String → Except Unit (ℕ → ℚ)}
    {df : List SalesRow} {p : String} {M : ℕ}
    (hlt : lastMonth (aggregateFor p df) < M) :
    (forecastRowsFor fitFor df
      ((List.range FORECAST_MONTHS).map (fun i => M + (i + 1))) p).length
      < FORECAST_MONTHS := by
  have hFM : FORECAST_MONTHS = 6 := rfl
  have hdates : (List.range FORECAST_MONTHS).map (fun i => M + (i + 1)) =
      [M + 1, M + 2, M + 3, M + 4, M + 5, M + 6] := by
    rw [hFM]
    simp [List.range_succ]
  simp only [forecastRowsFor]
  split
  · simp [hFM]
  next hlen =>
    split
    · simp [hFM]
    next fc heq =>
      rw [hdates]
      have h6 : forecastRowAt p fc (M + 6) = [] := by
        apply forecastRowAt_eq_nil
        intro row hrow
        have h2 := (mem_make_forecast_anoMes heq row hrow).2
        omega
      have g1 := forecastRowAt_length_le_one p fc (M + 1)
      have g2 := forecastRowAt_length_le_one p fc (M + 2)
      have g3 := forecastRowAt_length_le_one p fc (M + 3)
      have g4 := forecastRowAt_length_le_one p fc (M + 4)
      have g5 := forecastRowAt_length_le_one p fc (M + 5)
      simp only [List.flatMap_cons, List.flatMap_nil, List.length_append,
        List.length_nil, h6, hFM]
      omega

/-- A product is skipped entirely when its fit raises. -/
theorem forecastRowsFor_fit_error {fitFor : String → Except Unit (ℕ → ℚ)}
    {df : List SalesRow} {dates : List ℕ} {p : String}
    (hp : fitFor p = Except.error ()) :
    forecastRowsFor fitFor df dates p = [] := by
  simp only [forecastRowsFor]
  split
  · rfl
  · split
    · rfl
    next fc heq =>
      rw [hp] at heq
      simp [make_forecast_from_series] at heq

/-- A product with fewer than two monthly points is skipped entirely. -/
theorem forecastRowsFor_short {fitFor : String → Except Unit (ℕ → ℚ)}
    {df : List SalesRow} {dates : List ℕ} {p : String}
    (h : (aggregateFor p df).length < 2) :
    forecastRowsFor fitFor df dates p = [] := by
  simp only [forecastRowsFor]
  rw [if_pos h]

/-- Every row of the per-product `flatMap` belongs to the block of its
own product. -/
theorem mem_table_produto {fitFor : String → Except Unit (ℕ → ℚ)}
    {df : List SalesRow} {dates : List ℕ} {row : ExportRow}
    (h : row ∈ (pdUnique (df.map (fun r => r.produto))).flatMap
      (forecastRowsFor fitFor df dates)) :
    row ∈ forecastRowsFor fitFor df dates row.produto := by
  obtain ⟨q, _, hrow⟩ := List.mem_flatMap.mp h
  have hq := (mem_forecastRowsFor hrow).1
  rw [hq]
  exact hrow

/-- Membership in `create_all_forecasts_table`, reduced to the block of
the own product of the member over the dataset-wide candidate dates. -/
theorem mem_create_all_forecasts_table {fitFor : String → Except Unit (ℕ → ℚ)}
    {df : List SalesRow} {row : ExportRow}
    (h : row ∈ create_all_forecasts_table fitFor df) :
    row ∈ forecastRowsFor fitFor df
      ((List.range FORECAST_MONTHS).map (fun i => maxAnoMes df + (i + 1)))
      row.produto := by
  simp only [create_all_forecasts_table] at h
  exact mem_table_produto h

/-- Membership in `create_export_table`, reduced to the block of the own
product of the member over the selected date. -/
theorem mem_create_export_table {fitFor : String → Except Unit (ℕ → ℚ)}
    {df : List SalesRow} {selectedDate : ℕ} {row : ExportRow}
    (h : row ∈ create_export_table fitFor df selectedDate) :
    row ∈ forecastRowsFor fitFor df [selectedDate] row.produto := by
  simp only [create_export_table] at h
  exact mem_table_produto h

/-- C1, corrected. The claim asserts a mean-of-last-3 fallback inside the
forecaster that never propagates a fit failure to the caller. The code has
no such fallback: `make_forecast_from_series` returns the raised fit
unchanged, `show_dashboard` catches it and produces no combined result,
and the export builders skip the product (`except: continue`). -/
theorem claim_C1_amended (serie : List (ℕ × ℚ)) (dff : List SalesRow)
    (fitFor : String → Except Unit (ℕ → ℚ)) (df : List SalesRow) (p : String)
    (hp : fitFor p = Except.error ()) :
    make_forecast_from_series (Except.error ()) serie = Except.error () ∧
    show_dashboard_forecast (Except.error ()) dff = none ∧
    (∀ row ∈ create_all_forecasts_table fitFor df, row.produto ≠ p) ∧
    (∀ selectedDate : ℕ, ∀ row ∈ create_export_table fitFor df selectedDate,
      row.produto ≠ p) := by
  refine ⟨rfl, rfl, ?_, ?_⟩
  · intro row hrow hcontra
    have h2 := mem_create_all_forecasts_table hrow
    rw [hcontra, forecastRowsFor_fit_error hp] at h2
    simp at h2
  · intro selectedDate row hrow hcontra
    have h2 := mem_create_export_table hrow
    rw [hcontra, forecastRowsFor_fit_error hp] at h2
    simp at h2

/-- C1 witness: the amended theorem applied to a concrete series, a
concrete selection, and a fit map that fails on product `A`. -/
theorem claim_C1_witness :
    make_forecast_from_series (Except.error ()) [(0, (5 : ℚ)), (1, 7), (2, 9)] =
      Except.error () :=
  (claim_C1_amended [(0, (5 : ℚ)), (1, 7), (2, 9)] [⟨"A", 0, 5⟩]
    (fun _ => Except.error ()) [⟨"A", 0, 5⟩, ⟨"A", 1, 7⟩] "A" rfl).1

/-- C1 counterexample: with a failing fit, the forecaster returns the
failure to its caller instead of a mean-of-last-3 fallback forecast, and
the dashboard then produces no result at all: the failure is propagated,
refuting the claimed local recovery. -/
theorem claim_C1_counterexample :
    make_forecast_from_series (Except.error ()) [(0, (5 : ℚ)), (1, 7), (2, 9)] =
      Except.error () ∧
    show_dashboard_forecast (Except.error ())
      [⟨"B", 0, 5⟩, ⟨"B", 1, 7⟩, ⟨"B", 2, 9⟩] = none :=
  ⟨rfl, rfl⟩

/-- C2, corrected. When the fit succeeds the combined result has exactly
`len(historical) + FORECAST_MONTHS` rows; but when the fit fails there is
no fallback, so no combined result is produced at all (rather than a
`len + 6` result built from a mean fallback). -/
theorem claim_C2_amended (fit : Except Unit (ℕ → ℚ)) (dff : List SalesRow)
    (resultado : List FcRow)
    (h : show_dashboard_forecast fit dff = some resultado) :
    resultado.length = (aggregateMonths dff).length + FORECAST_MONTHS ∧
    show_dashboard_forecast (Except.error ()) dff = none := by
  refine ⟨?_, rfl⟩
  simp only [show_dashboard_forecast] at h
  cases hfc : make_forecast_from_series fit (aggregateMonths dff) with
  | error e => rw [hfc] at h; simp at h
  | ok fc =>
    rw [hfc] at h
    simp at h
    rw [← h]
    simp [make_forecast_length hfc]

/-- C2 witness: a two-month history with a succeeding fit yields a
combined table of 2 + 6 rows. -/
theorem claim_C2_witness :
    ([⟨0, 10, "HISTÓRICO"⟩, ⟨1, 20, "HISTÓRICO"⟩, ⟨2, 9, "PREVISÃO"⟩,
      ⟨3, 9, "PREVISÃO"⟩, ⟨4, 9, "PREVISÃO"⟩, ⟨5, 9, "PREVISÃO"⟩,
      ⟨6, 9, "PREVISÃO"⟩, ⟨7, 9, "PREVISÃO"⟩] : List FcRow).length =
      (aggregateMonths [⟨"A", 0, 10⟩, ⟨"A", 1, 20⟩]).length + FORECAST_MONTHS ∧
    show_dashboard_forecast (Except.error ()) [⟨"A", 0, 10⟩, ⟨"A", 1, 20⟩] = none :=
  claim_C2_amended (Except.ok fun _ => 10) [⟨"A", 0, 10⟩, ⟨"A", 1, 20⟩]
    [⟨0, 10, "HISTÓRICO"⟩, ⟨1, 20, "HISTÓRICO"⟩, ⟨2, 9, "PREVISÃO"⟩,
      ⟨3, 9, "PREVISÃO"⟩, ⟨4, 9, "PREVISÃO"⟩, ⟨5, 9, "PREVISÃO"⟩,
      ⟨6, 9, "PREVISÃO"⟩, ⟨7, 9, "PREVISÃO"⟩] (by with_unfolding_all decide)

/-- C2 counterexample: on fit failure no combined result is produced at
all — the claimed fallback case, in which the result would still have
`len(historical) + 6` rows, does not exist in the code. -/
theorem claim_C2_counterexample :
    show_dashboard_forecast (Except.error ()) [⟨"A", 0, 10⟩, ⟨"A", 1, 20⟩] = none ∧
    ¬∃ resultado : List FcRow,
      show_dashboard_forecast (Except.error ()) [⟨"A", 0, 10⟩, ⟨"A", 1, 20⟩] =
        some resultado := by
  refine ⟨rfl, ?_⟩
  rintro ⟨x, hx⟩
  rw [show show_dashboard_forecast (Except.error ())
    [⟨"A", 0, 10⟩, ⟨"A", 1, 20⟩] = none from rfl] at hx
  exact Option.noConfusion hx

/-- The last month of a series equals the last entry of its month column. -/
theorem lastMonth_eq_getLast_map (serie : List (ℕ × ℚ)) :
    lastMonth serie = ((serie.map Prod.fst).getLast?).getD 0 := by
  unfold lastMonth
  rw [List.getLast?_map]

/-- C3, confirmed. The six forecast entries of every produced forecast
carry exactly the months `L+1, …, L+6` where `L` is the last month of the
series — which, the series being sorted ascending, is the latest
historical month — so the forecast months are strictly consecutive with
no gaps, starting the month right after the latest historical month. -/
theorem claim_C3 (fit : Except Unit (ℕ → ℚ)) (serie : List (ℕ × ℚ))
    (fc : List FcRow) (h : make_forecast_from_series fit serie = Except.ok fc)
    (hs : List.Sorted (· ≤ ·) (serie.map Prod.fst)) :
    fc.map (fun row => row.anoMes) =
      (List.range FORECAST_MONTHS).map (fun i => lastMonth serie + 1 + i) ∧
    (∀ m ∈ serie.map Prod.fst, m ≤ lastMonth serie) ∧
    List.Chain' (fun a b => b = a + 1) (fc.map (fun row => row.anoMes)) := by
  obtain ⟨f, _, _, hfc⟩ := make_forecast_from_series_ok h
  have hmap : fc.map (fun row => row.anoMes) =
      (List.range FORECAST_MONTHS).map (fun i => lastMonth serie + 1 + i) := by
    rw [hfc, List.map_map]
    rfl
  refine ⟨hmap, ?_, ?_⟩
  · intro m hm
    rw [lastMonth_eq_getLast_map]
    exact le_getLast_of_sorted hs m hm
  · rw [hmap]
    have h6 : (List.range FORECAST_MONTHS).map (fun i => lastMonth serie + 1 + i) =
        [lastMonth serie + 1, lastMonth serie + 2, lastMonth serie + 3,
         lastMonth serie + 4, lastMonth serie + 5, lastMonth serie + 6] := by
      have hFM : FORECAST_MONTHS = 6 := rfl
      rw [hFM]
      simp [List.range_succ]
    rw [h6]
    simp [List.chain'_cons]

/-- C3 witness: a concrete sorted two-month series with a succeeding fit;
the forecast months are the six consecutive months after month 1. -/
theorem claim_C3_witness :
    ((List.range 6).map fun i =>
        ({ anoMes := 2 + i, quantidade := 9, previsao := "PREVISÃO" } : FcRow)).map
          (fun row => row.anoMes) =
      (List.range FORECAST_MONTHS).map
        (fun i => lastMonth [(0, (5 : ℚ)), (1, 7)] + 1 + i) ∧
    (∀ m ∈ ([(0, (5 : ℚ)), (1, 7)] : List (ℕ × ℚ)).map Prod.fst,
      m ≤ lastMonth [(0, (5 : ℚ)), (1, 7)]) ∧
    List.Chain' (fun a b => b = a + 1)
      (((List.range 6).map fun i =>
        ({ anoMes := 2 + i, quantidade := 9, previsao := "PREVISÃO" } : FcRow)).map
          (fun row => row.anoMes)) :=
  claim_C3 (Except.ok fun _ => 10) [(0, (5 : ℚ)), (1, 7)]
    ((List.range 6).map fun i =>
      { anoMes := 2 + i, quantidade := 9, previsao := "PREVISÃO" })
    (by with_unfolding_all decide) (by decide)

/-- C4, corrected. Every forecast quantity of a successful fit equals
`round(raw_model_output * 0.9)` (round half to even, as numpy rounds) and
is an integer; but it is NOT never-negative: the code applies no clipping,
so a negative raw model output produces a negative forecast quantity. -/
theorem claim_C4_amended (f : ℕ → ℚ) (serie : List (ℕ × ℚ)) (fc : List FcRow)
    (h : make_forecast_from_series (Except.ok f) serie = Except.ok fc) :
    fc.map (fun row => row.quantidade) =
      (List.range FORECAST_MONTHS).map
        (fun i => ((roundHalfEven (f i * REDUCTION_FACTOR) : ℤ) : ℚ)) ∧
    ∀ row ∈ fc, ∃ z : ℤ, row.quantidade = (z : ℚ) := by
  obtain ⟨f2, hf2, _, hfc⟩ := make_forecast_from_series_ok h
  injection hf2 with hf3
  rw [← hf3] at hfc
  constructor
  · rw [hfc, List.map_map]
    rfl
  · intro row hrow
    rw [hfc] at hrow
    obtain ⟨i, _, hrow⟩ := List.mem_map.mp hrow
    exact ⟨roundHalfEven (f i * REDUCTION_FACTOR), by rw [← hrow]⟩

/-- C4 witness: with a constant raw model output of 10, every emitted
quantity is `round(10 * 0.9) = 9`, an integer. -/
theorem claim_C4_witness :
    ((List.range 6).map fun i =>
        ({ anoMes := 2 + i, quantidade := 9, previsao := "PREVISÃO" } : FcRow)).map
          (fun row => row.quantidade) =
      (List.range FORECAST_MONTHS).map
        (fun i => ((roundHalfEven ((fun _ => (10 : ℚ)) i * REDUCTION_FACTOR) : ℤ) : ℚ)) ∧
    ∀ row ∈ (List.range 6).map fun i =>
        ({ anoMes := 2 + i, quantidade := 9, previsao := "PREVISÃO" } : FcRow),
      ∃ z : ℤ, row.quantidade = (z : ℚ) :=
  claim_C4_amended (fun _ => 10) [(0, (5 : ℚ)), (1, 7)]
    ((List.range 6).map fun i =>
      { anoMes := 2 + i, quantidade := 9, previsao := "PREVISÃO" })
    (by with_unfolding_all decide)

/-- C4 counterexample: a raw model output of −10 (a declining damped
trend can extrapolate below zero) yields six forecast quantities of
`round(−10 * 0.9) = −9 < 0`: the "never negative" part of the claim is
false on the code, which clips nothing. -/
theorem claim_C4_counterexample :
    ((make_forecast_from_series (Except.ok fun _ => (-10 : ℚ))
        [(0, 1), (1, 2)]).toOption.getD []).map (fun row => row.quantidade) =
      [-9, -9, -9, -9, -9, -9] ∧ (-9 : ℚ) < 0 := by
  constructor
  · with_unfolding_all decide
  · norm_num

/-- C5, corrected. The claim asserts a 6-point mean fallback for a
1-point series. In the code no forecast at all comes from such a series:
the export builders skip every product with fewer than two monthly points
(`if len(grouped) < 2: continue`), and in the dashboard the fit raised on
so short a series is caught, leaving no forecast. -/
theorem claim_C5_amended (fitFor : String → Except Unit (ℕ → ℚ))
    (df : List SalesRow) (p : String)
    (hshort : (aggregateFor p df).length < 2) :
    (∀ row ∈ create_all_forecasts_table fitFor df, row.produto ≠ p) ∧
    (∀ selectedDate : ℕ, ∀ row ∈ create_export_table fitFor df selectedDate,
      row.produto ≠ p) ∧
    (∀ dff : List SalesRow, show_dashboard_forecast (Except.error ()) dff = none) := by
  refine ⟨?_, ?_, fun _ => rfl⟩
  · intro row hrow hcontra
    have h2 := mem_create_all_forecasts_table hrow
    rw [hcontra, forecastRowsFor_short hshort] at h2
    simp at h2
  · intro selectedDate row hrow hcontra
    have h2 := mem_create_export_table hrow
    rw [hcontra, forecastRowsFor_short hshort] at h2
    simp at h2

/-- C5 witness: with a single-month product `A`, no export row for `A`
exists — here the concrete row the claimed fallback would have produced. -/
theorem claim_C5_witness :
    ({ produto := "A", anoMes := 6, quantidadePrevista := 9 } : ExportRow) ∉
      create_all_forecasts_table (fun _ => Except.ok fun _ => (10 : ℚ))
        [⟨"A", 5, 10⟩] :=
  fun hmem =>
    (claim_C5_amended (fun _ => Except.ok fun _ => (10 : ℚ)) [⟨"A", 5, 10⟩] "A"
      (by with_unfolding_all decide)).1 _ hmem rfl

/-- C5 counterexample: a series of exactly one historical point produces
no forecast anywhere — the export table is empty even when a fitted model
is available, and the dashboard path (whose fit raises on such a series)
yields no result — instead of the claimed 6-point mean fallback. -/
theorem claim_C5_counterexample :
    create_all_forecasts_table (fun _ => Except.ok fun _ => (10 : ℚ))
      [⟨"A", 5, 10⟩] = [] ∧
    show_dashboard_forecast (Except.error ()) [⟨"A", 5, 10⟩] = none := by
  constructor
  · with_unfolding_all decide
  · rfl

/-- C6, confirmed. Every retained row of the normalized table has
non-null customer, product and (numeric) quantity, a non-null parsed
issue date, and that issue date is on or after `MIN_DATE`. -/
theorem claim_C6 (hasGrupo : Bool) (raws : List RawRow) (row : DfRow)
    (h : row ∈ load_data_rows hasGrupo raws) :
    row.cliente.isSome ∧ row.produto.isSome ∧ row.quantidade.isSome ∧
      row.emissao.isSome ∧ MIN_DATE ≤ row.emissao.getD 0 := by
  simp only [load_data_rows] at h
  obtain ⟨r, hr, hrow⟩ := List.mem_map.mp h
  have hdate := List.of_mem_filter hr
  have hr2 := List.mem_of_mem_filter hr
  have hdrop := List.of_mem_filter hr2
  simp only [Bool.and_eq_true] at hdrop
  simp only [decide_eq_true_eq] at hdate
  rw [← hrow]
  exact ⟨hdrop.1.1.2, hdrop.1.2, hdrop.2, hdrop.1.1.1, hdate⟩

/-- C6 witness: a concrete raw table in which one row has an unparseable
date, one a non-numeric quantity, and one a pre-2024 date; the single
retained row satisfies the invariant. -/
theorem claim_C6_witness :
    (⟨some 20240315, some "ACME", some "P1", some 7, 24290,
      "SEM GRUPO"⟩ : DfRow).cliente.isSome ∧
    (⟨some 20240315, some "ACME", some "P1", some 7, 24290,
      "SEM GRUPO"⟩ : DfRow).produto.isSome ∧
    (⟨some 20240315, some "ACME", some "P1", some 7, 24290,
      "SEM GRUPO"⟩ : DfRow).quantidade.isSome ∧
    (⟨some 20240315, some "ACME", some "P1", some 7, 24290,
      "SEM GRUPO"⟩ : DfRow).emissao.isSome ∧
    MIN_DATE ≤ (⟨some 20240315, some "ACME", some "P1", some 7, 24290,
      "SEM GRUPO"⟩ : DfRow).emissao.getD 0 :=
  claim_C6 false
    [⟨some 20240315, some " acme ", some "p1", some 7, none⟩,
     ⟨some 20231231, some "b", some "p2", some 3, none⟩,
     ⟨none, some "c", some "p3", some 4, none⟩,
     ⟨some 20240401, some "d", some "p4", none, none⟩]
    ⟨some 20240315, some "ACME", some "P1", some 7, 24290, "SEM GRUPO"⟩
    (by decide)

/-- C7, confirmed. `find_column` matches exactly the columns whose
normalized form (diacritics stripped, trimmed, lower-cased) equals the
normalized target; the raw header `" cliente "` is matched to the logical
column `Cliente` (and `"Emissão"` to `Emissao`); and when a required
logical column has no match, loading fails with the missing-column error
that halts the pipeline. -/
theorem claim_C7 :
    (∀ (cols : List String) (target c : String),
      find_column cols target = some c →
        c ∈ cols ∧ remove_acentos c = remove_acentos target) ∧
    (∀ (cols : List String) (target c : String), c ∈ cols →
      remove_acentos c = remove_acentos target →
        (find_column cols target).isSome) ∧
    load_data_cols ["Emissão", " cliente ", "Produto", "Quantidade"] =
      Except.ok [("Emissao", "Emissão"), ("Cliente", "cliente"),
        ("Produto", "Produto"), ("Quantidade", "Quantidade")] ∧
    load_data_cols ["Emissao", "Produto", "Quantidade"] =
      Except.error "Cliente" := by
  refine ⟨?_, ?_, by decide, by decide⟩
  · intro cols target c h
    refine ⟨List.mem_of_find?_eq_some h, ?_⟩
    have := List.find?_some h
    simpa using this
  · intro cols target c hc heq
    rw [find_column, List.find?_isSome]
    exact ⟨c, hc, by simp [heq]⟩

/-- C7 witness: the general matching direction applied to the whitespace
scenario column. -/
theorem claim_C7_witness : (find_column [" cliente "] "Cliente").isSome :=
  claim_C7.2.1 [" cliente "] "Cliente" " cliente " (by simp) (by decide)

/-- C8, confirmed. Aggregating any product key over any permutation of
the normalized rows yields the identical monthly series: the same months
in the same ascending order with the same summed quantities. -/
theorem claim_C8 (rows rows' : List SalesRow) (p : String)
    (h : rows.Perm rows') :
    aggregateFor p rows = aggregateFor p rows' ∧
    List.Sorted (· ≤ ·) ((aggregateFor p rows).map Prod.fst) := by
  constructor
  · exact aggregateMonths_perm (h.filter _)
  · exact aggregateMonths_sorted _

/-- C8 witness: a concrete three-row table and a shuffle of it aggregate
identically for product `A`. -/
theorem claim_C8_witness :
    aggregateFor "A" [⟨"A", 2, 3⟩, ⟨"A", 1, 4⟩, ⟨"B", 2, 5⟩] =
      aggregateFor "A" [⟨"B", 2, 5⟩, ⟨"A", 1, 4⟩, ⟨"A", 2, 3⟩] ∧
    List.Sorted (· ≤ ·)
      ((aggregateFor "A" [⟨"A", 2, 3⟩, ⟨"A", 1, 4⟩, ⟨"B", 2, 5⟩]).map Prod.fst) :=
  claim_C8 [⟨"A", 2, 3⟩, ⟨"A", 1, 4⟩, ⟨"B", 2, 5⟩]
    [⟨"B", 2, 5⟩, ⟨"A", 1, 4⟩, ⟨"A", 2, 3⟩] "A" (by decide)

/-- C9, confirmed. Every row of either export table has a strictly
positive predicted quantity and comes from a product with at least two
distinct historical months; one-month products, raising fits, and
non-positive rounded forecasts leave no row. -/
theorem claim_C9 (fitFor : String → Except Unit (ℕ → ℚ)) (df : List SalesRow)
    (selectedDate : ℕ) (row : ExportRow) :
    (row ∈ create_all_forecasts_table fitFor df →
      0 < row.quantidadePrevista ∧ 2 ≤ (aggregateFor row.produto df).length) ∧
    (row ∈ create_export_table fitFor df selectedDate →
      0 < row.quantidadePrevista ∧ 2 ≤ (aggregateFor row.produto df).length) := by
  constructor
  · intro h
    have h2 := mem_forecastRowsFor (mem_create_all_forecasts_table h)
    exact ⟨h2.2.2.1, h2.2.2.2.1⟩
  · intro h
    have h2 := mem_forecastRowsFor (mem_create_export_table h)
    exact ⟨h2.2.2.1, h2.2.2.2.1⟩

/-- C9 witness: a concrete export row of a two-month product. -/
theorem claim_C9_witness :
    (0 : ℚ) < 9 ∧
    2 ≤ (aggregateFor "A" [⟨"A", 1, 10⟩, ⟨"A", 3, 10⟩]).length :=
  (claim_C9 (fun _ => Except.ok fun _ => (10 : ℚ)) [⟨"A", 1, 10⟩, ⟨"A", 3, 10⟩] 0
    ⟨"A", 4, 9⟩).1 (by with_unfolding_all decide)

/-- C10, confirmed. The candidate dates of `create_all_forecasts_table`
start after the dataset-wide maximum month while the forecast window of
each product starts after the own last month of that product; so a product whose last
month lags the dataset maximum only contributes rows in the overlap of
the two windows — strictly fewer than `FORECAST_MONTHS` rows, and none at
all once the lag reaches `FORECAST_MONTHS` months. -/
theorem claim_C10 (fitFor : String → Except Unit (ℕ → ℚ)) (df : List SalesRow)
    (p : String) (hlt : lastMonth (aggregateFor p df) < maxAnoMes df) :
    (∀ row ∈ create_all_forecasts_table fitFor df, row.produto = p →
      maxAnoMes df + 1 ≤ row.anoMes ∧
      row.anoMes ≤ maxAnoMes df + FORECAST_MONTHS ∧
      lastMonth (aggregateFor p df) + 1 ≤ row.anoMes ∧
      row.anoMes ≤ lastMonth (aggregateFor p df) + FORECAST_MONTHS) ∧
    (create_all_forecasts_table fitFor df).countP
      (fun row => row.produto == p) < FORECAST_MONTHS ∧
    (lastMonth (aggregateFor p df) + FORECAST_MONTHS ≤ maxAnoMes df →
      (create_all_forecasts_table fitFor df).countP
        (fun row => row.produto == p) = 0) := by
  have hwindow : ∀ row ∈ create_all_forecasts_table fitFor df, row.produto = p →
      maxAnoMes df + 1 ≤ row.anoMes ∧
      row.anoMes ≤ maxAnoMes df + FORECAST_MONTHS ∧
      lastMonth (aggregateFor p df) + 1 ≤ row.anoMes ∧
      row.anoMes ≤ lastMonth (aggregateFor p df) + FORECAST_MONTHS := by
    intro row hrow hp
    have h2 := mem_forecastRowsFor (mem_create_all_forecasts_table hrow)
    rw [hp] at h2
    obtain ⟨_, hdate, _, _, hlo, hhi⟩ := h2
    obtain ⟨i, hi, hdi⟩ := List.mem_map.mp hdate
    rw [List.mem_range] at hi
    exact ⟨by omega, by omega, hlo, hhi⟩
  have hcount : (create_all_forecasts_table fitFor df).countP
      (fun row => row.produto == p) < FORECAST_MONTHS := by
    simp only [create_all_forecasts_table]
    rw [countP_flatMap_products (pdUnique_nodup _)
      (fun q row hrow => (mem_forecastRowsFor hrow).1) p]
    split
    · exact forecastRowsFor_length_lt hlt
    · exact Nat.pos_of_ne_zero (by intro h; exact absurd h.symm (by decide))
  refine ⟨hwindow, hcount, ?_⟩
  intro hlag
  rw [List.countP_eq_zero]
  intro row hrow
  simp only [beq_iff_eq]
  intro hp
  have := hwindow row hrow hp
  omega

/-- C10 witness: product `A` ends at month 2 while the dataset (through
product `B`) runs to month 4, so `A` contributes fewer than 6 rows. -/
theorem claim_C10_witness :
    (create_all_forecasts_table (fun _ => Except.ok fun _ => (10 : ℚ))
      [⟨"A", 1, 5⟩, ⟨"A", 2, 5⟩, ⟨"B", 3, 5⟩, ⟨"B", 4, 5⟩]).countP
      (fun row => row.produto == "A") < FORECAST_MONTHS :=
  (claim_C10 (fun _ => Except.ok fun _ => (10 : ℚ))
    [⟨"A", 1, 5⟩, ⟨"A", 2, 5⟩, ⟨"B", 3, 5⟩, ⟨"B", 4, 5⟩] "A"
    (by with_unfolding_all decide)).2.1
